import Mathlib

/-!
Verification of the Nappi sleep/wake detection and aggregation pipeline.

The definitions below are shallow embeddings of the Python sources:
  - `Code/Monitor/M5Stack Core 2/m5stack_final.py`
      (`VerdictDebouncer.feed`, `handle_state_transition`),
  - `Code/Backend/app/services/sleep_state.py` (`SleepStateManager`),
  - `Code/Backend/app/api/sensor_events.py` (the sensor-event endpoints),
  - `Code/Backend/app/utils/sleep_blocks.py` (the sleep block aggregator).

Modelling conventions: timestamps are integers (device `ticks_ms`
milliseconds, server timestamps in seconds) or rationals (aggregator
timestamps in seconds, durations in minutes; Python float arithmetic on
exact datetime differences is modelled exactly).  Python dicts keyed by
baby id are modelled as functions `Int -> Option _`; the verdict-count
dict of the debouncer, whose iteration order matters for `max`, is
modelled as a first-occurrence-ordered key list plus counting functions.
-/

/-! ## Verdict debouncer (m5stack_final.py, class VerdictDebouncer) -/

/-- One reading kept in the debouncer buffer: `(now, verdict, confidence)`
as appended by `VerdictDebouncer.feed`. -/
structure Reading where
  t : Int
  verdict : String
  conf : Int
deriving DecidableEq

/-- Parameters of `VerdictDebouncer.__init__`: `_window_ms = int(window_s*1000)`
and `_threshold`. -/
structure DebounceParams where
  windowMs : Int
  threshold : Int
deriving DecidableEq

/-- The module-level instance `VerdictDebouncer(DEBOUNCE_WINDOW_S, DEBOUNCE_THRESHOLD)`
with `DEBOUNCE_WINDOW_S = 25.0` (so `_window_ms = 25000`) and
`DEBOUNCE_THRESHOLD = 600`. -/
def debounceParams : DebounceParams := ⟨25000, 600⟩

/-- The verdict of every buffered reading, in buffer order. -/
def windowLabels (buffer : List Reading) : List String :=
  buffer.map (fun r => r.verdict)

/-- Occurrence count of verdict `u` in the buffer: `counts[u]` built by the
`for _, v, c in self._buffer` loop of `feed`. -/
def countLabel (buf : List Reading) (u : String) : Nat :=
  (buf.filter (fun r => r.verdict == u)).length

/-- Confidence sum of verdict `u` in the buffer: `scores[u]` built by the same
loop of `feed`. -/
def scoreLabel (buf : List Reading) (u : String) : Int :=
  ((buf.filter (fun r => r.verdict == u)).map (fun r => r.conf)).sum

/-- The key list of the Python `counts` dict: each distinct verdict once, in
order of first occurrence in the buffer (Python dicts iterate in insertion
order). -/
def dictKeys : List String → List String
  | [] => []
  | v :: l => v :: (dictKeys l).filter (fun u => u != v)

/-- Fold of Python `max(counts, key=counts.get)` over the remaining keys:
keep the current best, replace it only on a strictly larger count. -/
def pickMax1 (f : String → Nat) (b : String) : List String → String
  | [] => b
  | x :: xs => pickMax1 f (if f b < f x then x else b) xs

/-- Python `max(counts, key=counts.get)`: first key attaining the maximal
count, `none` on an empty dict (`if not counts: return None`). -/
def pickMax (f : String → Nat) : List String → Option String
  | [] => none
  | x :: xs => some (pickMax1 f x xs)

/-- The buffer after the append and prune steps of `feed`: append
`(now, verdict, confidence)`, then keep entries with
`ticks_diff(t, cutoff) >= 0` for `cutoff = ticks_add(now, -window_ms)`. -/
def feedWindow (p : DebounceParams) (buf : List Reading) (verdict : String)
    (conf : Int) (now : Int) : List Reading :=
  (buf ++ [Reading.mk now verdict conf]).filter (fun r => decide (0 ≤ r.t - (now - p.windowMs)))

/-- Steps 3 to 7 of `VerdictDebouncer.feed` on the pruned buffer: find the
winner by count, run the dominance and confidence tests.  The dominance loop
`for v, cnt in counts.items(): if v != best and best_count < cnt * 3: return
None` passes exactly when every other key `u` has
`countLabel u * 3 ≤ countLabel best`. -/
def feedVerdict (thr : Int) (buffer : List Reading) : Option String :=
  match pickMax (fun u => countLabel buffer u) (dictKeys (windowLabels buffer)) with
  | none => none
  | some best =>
      if ∀ u ∈ dictKeys (windowLabels buffer),
          u ≠ best → countLabel buffer u * 3 ≤ countLabel buffer best then
        if thr ≤ scoreLabel buffer best then some best else none
      else none

/-- Shallow embedding of `VerdictDebouncer.feed`: append the reading, prune
the window, and return the debounced verdict (if the dominance and confidence
tests both pass) together with the new buffer (the mutated `self._buffer`). -/
def feed (p : DebounceParams) (buf : List Reading) (verdict : String)
    (conf : Int) (now : Int) : Option String × List Reading :=
  (feedVerdict p.threshold (feedWindow p buf verdict conf now),
   feedWindow p buf verdict conf now)

theorem pickMax1_mem (f : String → Nat) (xs : List String) :
    ∀ b, pickMax1 f b xs = b ∨ pickMax1 f b xs ∈ xs := by
  induction xs with
  | nil => intro b; left; rfl
  | cons x xs ih =>
    intro b
    simp only [pickMax1]
    rcases ih (if f b < f x then x else b) with h | h
    · rw [h]
      split
      · right; exact List.mem_cons_self x xs
      · left; rfl
    · right; exact List.mem_cons_of_mem x h

theorem pickMax1_ge (f : String → Nat) (xs : List String) :
    ∀ b, f b ≤ f (pickMax1 f b xs) ∧ ∀ x ∈ xs, f x ≤ f (pickMax1 f b xs) := by
  induction xs with
  | nil =>
    intro b
    refine ⟨le_refl _, ?_⟩
    intro x hx
    cases hx
  | cons x xs ih =>
    intro b
    simp only [pickMax1]
    by_cases hbx : f b < f x
    · obtain ⟨h1, h2⟩ := ih x
      simp only [if_pos hbx]
      refine ⟨le_trans (le_of_lt hbx) h1, ?_⟩
      intro y hy
      rcases List.mem_cons.mp hy with rfl | hy
      · exact h1
      · exact h2 y hy
    · obtain ⟨h1, h2⟩ := ih b
      simp only [if_neg hbx]
      refine ⟨h1, ?_⟩
      intro y hy
      rcases List.mem_cons.mp hy with rfl | hy
      · exact le_trans (le_of_not_lt hbx) h1
      · exact h2 y hy

theorem pickMax1_eq_of_strict (f : String → Nat) (xs : List String) :
    ∀ b w, (w = b ∨ w ∈ xs) → (b ≠ w → f b < f w) →
      (∀ x ∈ xs, x ≠ w → f x < f w) → pickMax1 f b xs = w := by
  induction xs with
  | nil =>
    intro b w hmem hb _
    simp only [pickMax1]
    rcases hmem with rfl | h
    · rfl
    · cases h
  | cons x xs ih =>
    intro b w hmem hb hxs
    simp only [pickMax1]
    apply ih (if f b < f x then x else b) w
    · rcases hmem with rfl | hwx
      · by_cases hbx : f w < f x
        · by_cases hxw : x = w
          · rw [if_pos hbx]
            exact Or.inl hxw.symm
          · exact absurd (hxs x (List.mem_cons_self x xs) hxw) (lt_asymm hbx)
        · rw [if_neg hbx]
          exact Or.inl rfl
      · rcases List.mem_cons.mp hwx with rfl | hwxs
        · by_cases hbx : f b < f w
          · rw [if_pos hbx]
            exact Or.inl rfl
          · by_cases hbw : b = w
            · rw [if_neg hbx]
              exact Or.inl hbw.symm
            · exact absurd (hb hbw) hbx
        · right; exact hwxs
    · intro hbnw
      by_cases hbx : f b < f x
      · simp only [if_pos hbx] at hbnw ⊢
        exact hxs x (List.mem_cons_self x xs) hbnw
      · simp only [if_neg hbx] at hbnw ⊢
        exact hb hbnw
    · intro y hy hynw
      exact hxs y (List.mem_cons_of_mem x hy) hynw

theorem pickMax_mem (f : String → Nat) (xs : List String) (b : String)
    (h : pickMax f xs = some b) : b ∈ xs := by
  cases xs with
  | nil => cases h
  | cons x xs =>
    simp only [pickMax, Option.some.injEq] at h
    rcases pickMax1_mem f xs x with h1 | h1
    · rw [h] at h1; rw [← h1]; exact List.mem_cons_self b xs
    · rw [h] at h1; exact List.mem_cons_of_mem x h1

theorem pickMax_ge (f : String → Nat) (xs : List String) (b : String)
    (h : pickMax f xs = some b) : ∀ x ∈ xs, f x ≤ f b := by
  cases xs with
  | nil => cases h
  | cons x xs =>
    simp only [pickMax, Option.some.injEq] at h
    intro y hy
    rcases List.mem_cons.mp hy with rfl | hy
    · rw [← h]; exact (pickMax1_ge f xs y).1
    · rw [← h]; exact (pickMax1_ge f xs x).2 y hy

theorem pickMax_eq_of_strict (f : String → Nat) (xs : List String) (w : String)
    (hw : w ∈ xs) (hstrict : ∀ x ∈ xs, x ≠ w → f x < f w) :
    pickMax f xs = some w := by
  cases xs with
  | nil => cases hw
  | cons x xs =>
    simp only [pickMax, Option.some.injEq]
    apply pickMax1_eq_of_strict f xs x w
    · rcases List.mem_cons.mp hw with rfl | hw
      · left; rfl
      · right; exact hw
    · intro hxw
      exact hstrict x (List.mem_cons_self x xs) (fun h => hxw h)
    · intro y hy hynw
      exact hstrict y (List.mem_cons_of_mem x hy) hynw

theorem mem_dictKeys (u : String) : ∀ ls : List String, u ∈ dictKeys ls ↔ u ∈ ls := by
  intro ls
  induction ls with
  | nil => simp [dictKeys]
  | cons v l ih =>
    simp only [dictKeys, List.mem_cons, List.mem_filter]
    constructor
    · rintro (rfl | ⟨h1, _⟩)
      · exact Or.inl rfl
      · exact Or.inr (ih.mp h1)
    · rintro (rfl | h)
      · exact Or.inl rfl
      · by_cases huv : u = v
        · exact Or.inl huv
        · right
          exact ⟨ih.mpr h, by simp [huv]⟩

theorem one_le_countLabel (buf : List Reading) (u : String)
    (h : u ∈ windowLabels buf) : 1 ≤ countLabel buf u := by
  obtain ⟨r, hr, hv⟩ := List.mem_map.mp h
  have hmem : r ∈ buf.filter (fun r => r.verdict == u) :=
    List.mem_filter.mpr ⟨hr, by simp [hv]⟩
  have : 0 < (buf.filter (fun r => r.verdict == u)).length :=
    List.length_pos.mpr (List.ne_nil_of_mem hmem)
  exact this

theorem feedVerdict_eq_some_iff (thr : Int) (buffer : List Reading) (w : String) :
    feedVerdict thr buffer = some w ↔
      (w ∈ windowLabels buffer ∧
       (∀ u ∈ windowLabels buffer,
          countLabel buffer u ≤ countLabel buffer w) ∧
       (∀ u ∈ windowLabels buffer,
          u ≠ w → 3 * countLabel buffer u ≤ countLabel buffer w) ∧
       thr ≤ scoreLabel buffer w) := by
  constructor
  · intro h
    unfold feedVerdict at h
    split at h
    · exact Option.noConfusion h
    · rename_i best hpm
      split at h
      · rename_i hdom
        split at h
        · rename_i hthr
          injection h with hbw
          subst hbw
          refine ⟨(mem_dictKeys best _).mp (pickMax_mem _ _ best hpm), ?_, ?_, hthr⟩
          · intro u hu
            exact pickMax_ge _ _ best hpm u ((mem_dictKeys u _).mpr hu)
          · intro u hu hub
            have := hdom u ((mem_dictKeys u _).mpr hu) hub
            omega
        · exact Option.noConfusion h
      · exact Option.noConfusion h
  · rintro ⟨hw, _, hdom, hthr⟩
    have hwk : w ∈ dictKeys (windowLabels buffer) := (mem_dictKeys w _).mpr hw
    have hstrict : ∀ x ∈ dictKeys (windowLabels buffer),
        x ≠ w → countLabel buffer x < countLabel buffer w := by
      intro x hx hxw
      have hx1 : x ∈ windowLabels buffer := (mem_dictKeys x _).mp hx
      have h1 : 1 ≤ countLabel buffer x := one_le_countLabel buffer x hx1
      have h3 : 3 * countLabel buffer x ≤ countLabel buffer w := hdom x hx1 hxw
      omega
    have hpm := pickMax_eq_of_strict (fun u => countLabel buffer u) _ w hwk hstrict
    have hdom2 : ∀ u ∈ dictKeys (windowLabels buffer),
        u ≠ w → countLabel buffer u * 3 ≤ countLabel buffer w := by
      intro u hu huw
      have := hdom u ((mem_dictKeys u _).mp hu) huw
      omega
    unfold feedVerdict
    rw [hpm]
    show (if ∀ u ∈ dictKeys (windowLabels buffer),
            u ≠ w → countLabel buffer u * 3 ≤ countLabel buffer w then
          if thr ≤ scoreLabel buffer w then some w else none
        else none) = some w
    rw [if_pos hdom2, if_pos hthr]

/-- C2: after a reading is appended and stale entries pruned, `feed` returns
the label `w` if and only if `w` occurs in the window, has the maximal
occurrence count, its count is at least three times the count of every other
label present, and its confidence sum reaches the threshold; in every other
case (count ties and sub-threshold confidence included) `feed` returns
nothing. -/
theorem feed_verdict_iff (p : DebounceParams) (buf : List Reading) (v : String)
    (c : Int) (now : Int) (w : String) :
    (feed p buf v c now).1 = some w ↔
      (w ∈ windowLabels (feedWindow p buf v c now) ∧
       (∀ u ∈ windowLabels (feedWindow p buf v c now),
          countLabel (feedWindow p buf v c now) u ≤ countLabel (feedWindow p buf v c now) w) ∧
       (∀ u ∈ windowLabels (feedWindow p buf v c now),
          u ≠ w → 3 * countLabel (feedWindow p buf v c now) u ≤ countLabel (feedWindow p buf v c now) w) ∧
       p.threshold ≤ scoreLabel (feedWindow p buf v c now) w) :=
  feedVerdict_eq_some_iff p.threshold (feedWindow p buf v c now) w

/-- C8: after every call to `feed`, each reading remaining in the buffer is
at most `windowMs` old, and a reading of the appended buffer survives exactly
when its age does not exceed the window span. -/
theorem feed_window_pruning_invariant (p : DebounceParams) (buf : List Reading)
    (v : String) (c : Int) (now : Int) :
    (∀ r ∈ (feed p buf v c now).2, now - r.t ≤ p.windowMs) ∧
    (∀ r : Reading, r ∈ (feed p buf v c now).2 ↔
        r ∈ buf ++ [Reading.mk now v c] ∧ now - r.t ≤ p.windowMs) := by
  have hiff : ∀ r : Reading, r ∈ (feed p buf v c now).2 ↔
      r ∈ buf ++ [Reading.mk now v c] ∧ now - r.t ≤ p.windowMs := by
    intro r
    show r ∈ feedWindow p buf v c now ↔ _
    unfold feedWindow
    rw [List.mem_filter]
    constructor
    · rintro ⟨h1, h2⟩
      refine ⟨h1, ?_⟩
      simp only [decide_eq_true_eq] at h2
      omega
    · rintro ⟨h1, h2⟩
      refine ⟨h1, ?_⟩
      simp only [decide_eq_true_eq]
      omega
  exact ⟨fun r hr => ((hiff r).mp hr).2, hiff⟩

/-! ## Lifecycle state machine (m5stack_final.py, handle_state_transition) -/

/-- The device states held in `current_state`: `"awake" | "asleep" | "away"`. -/
inductive MonState where
  | awake
  | asleep
  | away
deriving DecidableEq

/-- The backend events fired by `post_event`. -/
inductive LifecycleEvent where
  | sleepStart
  | sleepEnd
  | babyAway
deriving DecidableEq

/-- Shallow embedding of `handle_state_transition`: given the current state
and the debounced verdict (`None` when the debouncer returned nothing),
return the new state and the event POSTed to the backend, if any.  Verdict
strings other than the three known labels take no branch and leave the state
unchanged. -/
def handle_state_transition (s : MonState) (verdict : Option String) :
    MonState × Option LifecycleEvent :=
  match verdict with
  | none => (s, none)
  | some v =>
      if v = "Asleep" then
        if s ≠ MonState.asleep then (MonState.asleep, some LifecycleEvent.sleepStart)
        else (s, none)
      else if v = "Awake" then
        if s = MonState.asleep then (MonState.awake, some LifecycleEvent.sleepEnd)
        else if s = MonState.away then (MonState.awake, none)
        else (s, none)
      else if v = "No Baby Found" then
        if s = MonState.asleep ∨ s = MonState.awake then
          (MonState.away, some LifecycleEvent.babyAway)
        else (MonState.away, none)
      else (s, none)

/-- The device tick loop restricted to the state machine: feed a sequence of
debounced verdicts, collecting the fired events in order. -/
def runMachine (s : MonState) : List (Option String) → MonState × List LifecycleEvent
  | [] => (s, [])
  | v :: rest =>
      let step := handle_state_transition s v
      let tail := runMachine step.1 rest
      (tail.1, step.2.toList ++ tail.2)

theorem runMachine_asleep_replicate (n : Nat) :
    runMachine MonState.asleep (List.replicate n (some "Asleep")) =
      (MonState.asleep, []) := by
  induction n with
  | zero => rfl
  | succ n ih =>
    simp only [List.replicate, runMachine]
    rw [show handle_state_transition MonState.asleep (some "Asleep") =
        (MonState.asleep, none) from rfl]
    rw [ih]
    rfl

/-- C3: the state machine follows the transition table of the spec and emits
each lifecycle event exactly once per actual state change: `None` is a no-op;
entering Asleep from Awake or Away fires `sleep-start` once; re-affirming
Asleep fires nothing; Asleep to Awake fires `sleep-end`; Away to Awake moves
the state silently; Awake re-affirmed is silent; Asleep or Awake to
NoSubject fires `baby-away`; NoSubject while Away is silent; and feeding
Asleep any number of times from Away fires exactly one `sleep-start`. -/
theorem state_machine_transition_table :
    (∀ s, handle_state_transition s none = (s, none)) ∧
    handle_state_transition MonState.awake (some "Asleep") =
      (MonState.asleep, some LifecycleEvent.sleepStart) ∧
    handle_state_transition MonState.away (some "Asleep") =
      (MonState.asleep, some LifecycleEvent.sleepStart) ∧
    handle_state_transition MonState.asleep (some "Asleep") = (MonState.asleep, none) ∧
    handle_state_transition MonState.asleep (some "Awake") =
      (MonState.awake, some LifecycleEvent.sleepEnd) ∧
    handle_state_transition MonState.away (some "Awake") = (MonState.awake, none) ∧
    handle_state_transition MonState.awake (some "Awake") = (MonState.awake, none) ∧
    handle_state_transition MonState.asleep (some "No Baby Found") =
      (MonState.away, some LifecycleEvent.babyAway) ∧
    handle_state_transition MonState.awake (some "No Baby Found") =
      (MonState.away, some LifecycleEvent.babyAway) ∧
    handle_state_transition MonState.away (some "No Baby Found") = (MonState.away, none) ∧
    (∀ n : Nat,
      (runMachine MonState.away (List.replicate (n + 1) (some "Asleep"))).2 =
        [LifecycleEvent.sleepStart]) ∧
    (runMachine MonState.away [some "Awake"] = (MonState.awake, [])) := by
  refine ⟨?_, rfl, rfl, rfl, rfl, rfl, rfl, rfl, rfl, rfl, ?_, rfl⟩
  · intro s; rfl
  · intro n
    simp only [List.replicate, runMachine]
    rw [show handle_state_transition MonState.away (some "Asleep") =
        (MonState.asleep, some LifecycleEvent.sleepStart) from rfl]
    rw [runMachine_asleep_replicate n]
    rfl

/-! ## Session tracker (sleep_state.py, SleepStateManager)

Server timestamps are integers (seconds).  The dicts `_sleeping_babies` and
`_intervention_cooldowns` are modelled as functions from baby id; each
manager method runs under `self._lock`, so one method call is one atomic
step on this state. -/

/-- The `SleepSession` dataclass: `{baby_id, start_time}`. -/
structure SleepSession where
  baby_id : Int
  start_time : Int
deriving DecidableEq

/-- The `_sleeping_babies` dict: baby id to live session. -/
def Registry : Type := Int → Option SleepSession

/-- The constant `INTERVENTION_COOLDOWN_MINUTES = 20` from constants.py. -/
def INTERVENTION_COOLDOWN_MINUTES : Int := 20

/-- Shallow embedding of `SleepStateManager.start_sleep`: return the existing
session untouched if one exists, otherwise create `{baby_id, start_time=now}`. -/
def start_sleep (reg : Registry) (baby_id : Int) (now : Int) : SleepSession × Registry :=
  match reg baby_id with
  | some session => (session, reg)
  | none =>
      (SleepSession.mk baby_id now,
       fun x => if x = baby_id then some (SleepSession.mk baby_id now) else reg x)

/-- Shallow embedding of `SleepStateManager.end_sleep`:
`self._sleeping_babies.pop(baby_id, None)`, returning `None` when the baby
had no active session. -/
def end_sleep (reg : Registry) (baby_id : Int) : Option SleepSession × Registry :=
  match reg baby_id with
  | none => (none, reg)
  | some session => (some session, fun x => if x = baby_id then none else reg x)

/-- An empty registry: no baby is tracked. -/
def regEmpty : Registry := fun _ => none

/-- A registry tracking exactly baby 1, asleep since time 5. -/
def regOne : Registry := fun x => if x = 1 then some (SleepSession.mk 1 5) else none

/-- C7: `start_sleep` is idempotent.  If the subject already has an active
session the existing session is returned with its original start time and
the whole registry is untouched; otherwise a new session starting now is
created under the subject's id and returned. -/
theorem start_sleep_idempotent (reg : Registry) (baby_id now : Int) :
    (∀ s, reg baby_id = some s → start_sleep reg baby_id now = (s, reg)) ∧
    (reg baby_id = none →
      start_sleep reg baby_id now =
        (SleepSession.mk baby_id now,
         fun x => if x = baby_id then some (SleepSession.mk baby_id now) else reg x)) := by
  constructor
  · intro s hs
    unfold start_sleep
    rw [hs]
  · intro hnone
    unfold start_sleep
    rw [hnone]

/-- Witness for C7 at concrete registries: a duplicate `start_sleep` for
baby 1 returns the stored session of `regOne` unchanged, and a fresh
`start_sleep` on the empty registry creates the session. -/
theorem start_sleep_idempotent_witness :
    start_sleep regOne 1 99 = (SleepSession.mk 1 5, regOne) ∧
    start_sleep regEmpty 1 99 =
      (SleepSession.mk 1 99,
       fun x => if x = 1 then some (SleepSession.mk 1 99) else regEmpty x) :=
  ⟨(start_sleep_idempotent regOne 1 99).1 (SleepSession.mk 1 5) rfl,
   (start_sleep_idempotent regEmpty 1 99).2 rfl⟩

/-- C6: `end_sleep` on a subject with no active session returns `none`
without failing and leaves the registry unchanged; on a subject with an
active session it removes exactly that entry and returns the session. -/
theorem end_sleep_no_session (reg : Registry) (baby_id : Int) :
    (reg baby_id = none → end_sleep reg baby_id = (none, reg)) ∧
    (∀ s, reg baby_id = some s →
      end_sleep reg baby_id = (some s, fun x => if x = baby_id then none else reg x)) := by
  constructor
  · intro hnone
    unfold end_sleep
    rw [hnone]
  · intro s hs
    unfold end_sleep
    rw [hs]

/-- Witness for C6 at concrete registries: `end_sleep` for untracked baby 2
returns `none` and leaves `regOne` unchanged; for tracked baby 1 it removes
and returns the session. -/
theorem end_sleep_no_session_witness :
    end_sleep regOne 2 = (none, regOne) ∧
    end_sleep regOne 1 =
      (some (SleepSession.mk 1 5), fun x => if x = 1 then none else regOne x) :=
  ⟨(end_sleep_no_session regOne 2).1 rfl,
   (end_sleep_no_session regOne 1).2 (SleepSession.mk 1 5) rfl⟩

/-! ## Cooldown arbiter and sensor-event endpoints
(sleep_state.py cooldown methods, sensor_events.py routes) -/

/-- The full in-memory state of `SleepStateManager`: the session registry and
the `_intervention_cooldowns` dict (baby id to `cooldown_until`, seconds). -/
structure ServerState where
  sessions : Int → Option SleepSession
  cooldowns : Int → Option Int

/-- Shallow embedding of `SleepStateManager.is_in_cooldown`: true iff a
non-expired entry exists; an expired entry is deleted as a side effect of
the check. -/
def is_in_cooldown (st : ServerState) (baby_id now : Int) : Bool × ServerState :=
  match st.cooldowns baby_id with
  | none => (false, st)
  | some cooldown_until =>
      if now < cooldown_until then (true, st)
      else (false, { st with cooldowns := fun x => if x = baby_id then none else st.cooldowns x })

/-- Shallow embedding of `SleepStateManager.get_cooldown_remaining`:
`remaining = (cooldown_until - utcnow())` in minutes; when positive return
`int(remaining) + 1` (truncation plus one, modelled on whole seconds as
`(cooldown_until - now).toNat / 60 + 1`), otherwise delete the entry and
return `None`. -/
def get_cooldown_remaining (st : ServerState) (baby_id now : Int) : Option Nat × ServerState :=
  match st.cooldowns baby_id with
  | none => (none, st)
  | some cooldown_until =>
      if 0 < cooldown_until - now then
        (some ((cooldown_until - now).toNat / 60 + 1), st)
      else (none, { st with cooldowns := fun x => if x = baby_id then none else st.cooldowns x })

/-- Shallow embedding of `SleepStateManager.start_intervention_cooldown`:
unconditionally (re)set the cooldown to `now + INTERVENTION_COOLDOWN_MINUTES`. -/
def start_intervention_cooldown (st : ServerState) (baby_id now : Int) : Int × ServerState :=
  let cooldown_until := now + INTERVENTION_COOLDOWN_MINUTES * 60
  (cooldown_until,
   { st with cooldowns := fun x => if x = baby_id then some cooldown_until else st.cooldowns x })

/-- `SleepStateManager.start_sleep` lifted to the full manager state. -/
def mgr_start_sleep (st : ServerState) (baby_id now : Int) : SleepSession × ServerState :=
  let r := start_sleep st.sessions baby_id now
  (r.1, { st with sessions := r.2 })

/-- `SleepStateManager.end_sleep` lifted to the full manager state. -/
def mgr_end_sleep (st : ServerState) (baby_id : Int) : Option SleepSession × ServerState :=
  let r := end_sleep st.sessions baby_id
  (r.1, { st with sessions := r.2 })

/-- Responses of `POST /sensor/sleep-start`: the cooldown-ignored payload,
the unknown-baby 404, or the processed `SleepStartResponse`. -/
inductive SleepStartResult where
  | ignored (cooldown_remaining_minutes : Option Nat)
  | babyNotFound
  | started (session : SleepSession)
deriving DecidableEq

/-- Shallow embedding of the `sleep_start` endpoint of sensor_events.py: check
`is_in_cooldown` first (answering the ignored payload with
`get_cooldown_remaining`), then the external baby lookup (modelled by the
`baby_exists` flag), then mutate the tracker with `start_sleep`. -/
def sleep_start_ep (st : ServerState) (baby_id now : Int) (baby_exists : Bool) :
    SleepStartResult × ServerState :=
  let c := is_in_cooldown st baby_id now
  if c.1 then
    let r := get_cooldown_remaining c.2 baby_id now
    (SleepStartResult.ignored r.1, r.2)
  else if !baby_exists then (SleepStartResult.babyNotFound, c.2)
  else
    let r := mgr_start_sleep c.2 baby_id now
    (SleepStartResult.started r.1, r.2)

/-- Responses of `POST /sensor/sleep-end`: the cooldown-ignored payload, the
400 for a baby that was not sleeping, or the recorded awakening (whose
persistence, insight and alert steps touch only external collaborators and
are omitted). -/
inductive SleepEndResult where
  | ignored (cooldown_remaining_minutes : Option Nat)
  | wasNotSleeping
  | recorded (session : SleepSession) (sleep_duration_seconds : Int)
deriving DecidableEq

/-- Shallow embedding of the `sleep_end` endpoint of sensor_events.py: check
`is_in_cooldown` first, then `end_sleep`, answering 400 when no session was
active. -/
def sleep_end_ep (st : ServerState) (baby_id now : Int) : SleepEndResult × ServerState :=
  let c := is_in_cooldown st baby_id now
  if c.1 then
    let r := get_cooldown_remaining c.2 baby_id now
    (SleepEndResult.ignored r.1, r.2)
  else
    let r := mgr_end_sleep c.2 baby_id
    match r.1 with
    | none => (SleepEndResult.wasNotSleeping, r.2)
    | some session => (SleepEndResult.recorded session (now - session.start_time), r.2)

/-- Responses of `POST /sensor/baby-away`: `was_sleeping: false` or the
stopped-tracking payload. -/
inductive BabyAwayResult where
  | wasNotSleeping
  | stopped (session : SleepSession) (tracking_duration_seconds : Int)
deriving DecidableEq

/-- Shallow embedding of the `baby_away` endpoint of sensor_events.py: it
calls `end_sleep` directly, with no cooldown check. -/
def baby_away_ep (st : ServerState) (baby_id now : Int) : BabyAwayResult × ServerState :=
  let r := mgr_end_sleep st baby_id
  match r.1 with
  | none => (BabyAwayResult.wasNotSleeping, r.2)
  | some session => (BabyAwayResult.stopped session (now - session.start_time), r.2)

/-- A concrete manager state: baby 1 asleep since time 0, with an
intervention cooldown running until time 1200. -/
def stCooldown : ServerState :=
  { sessions := fun x => if x = 1 then some (SleepSession.mk 1 0) else none,
    cooldowns := fun x => if x = 1 then some 1200 else none }

/-- C1 counterexample: at time 60 baby 1 is inside the cooldown window, yet
the `baby-away` automatic event still removes the session from the registry
and answers with the normal processed payload, not an ignored one — the
endpoint performs no cooldown check. -/
theorem baby_away_ignores_cooldown_cex :
    (is_in_cooldown stCooldown 1 60).1 = true ∧
    (baby_away_ep stCooldown 1 60).1 = BabyAwayResult.stopped (SleepSession.mk 1 0) 60 ∧
    (baby_away_ep stCooldown 1 60).2.sessions 1 = none ∧
    stCooldown.sessions 1 = some (SleepSession.mk 1 0) := by
  decide

/-- C1 amended: while a subject's cooldown is active, the automatic
`sleep-start` and `sleep-end` events leave the session registry unchanged
and answer the ignored payload carrying the remaining cooldown minutes;
`baby-away` performs no cooldown check and removes any active session
regardless. -/
theorem cooldown_gates_start_end_not_baby_away (st : ServerState)
    (baby_id now t : Int) (baby_exists : Bool)
    (hc : st.cooldowns baby_id = some t) (hlt : now < t) :
    (sleep_start_ep st baby_id now baby_exists).1 =
      SleepStartResult.ignored (some ((t - now).toNat / 60 + 1)) ∧
    (sleep_start_ep st baby_id now baby_exists).2.sessions = st.sessions ∧
    (sleep_end_ep st baby_id now).1 =
      SleepEndResult.ignored (some ((t - now).toNat / 60 + 1)) ∧
    (sleep_end_ep st baby_id now).2.sessions = st.sessions ∧
    (∀ s, st.sessions baby_id = some s →
      (baby_away_ep st baby_id now).1 = BabyAwayResult.stopped s (now - s.start_time) ∧
      (baby_away_ep st baby_id now).2.sessions baby_id = none) := by
  have hin : is_in_cooldown st baby_id now = (true, st) := by
    unfold is_in_cooldown
    rw [hc]
    exact if_pos hlt
  have hrem : get_cooldown_remaining st baby_id now =
      (some ((t - now).toNat / 60 + 1), st) := by
    unfold get_cooldown_remaining
    rw [hc]
    exact if_pos (by omega : (0 : Int) < t - now)
  refine ⟨?_, ?_, ?_, ?_, ?_⟩
  · simp [sleep_start_ep, hin, hrem]
  · simp [sleep_start_ep, hin, hrem]
  · simp [sleep_end_ep, hin, hrem]
  · simp [sleep_end_ep, hin, hrem]
  · intro s hs
    constructor
    · simp only [baby_away_ep, mgr_end_sleep, end_sleep, hs]
    · simp only [baby_away_ep, mgr_end_sleep, end_sleep, hs]
      simp

/-- Witness for the amended C1 at the concrete state `stCooldown`: at time 60
both gated events answer ignored with 20 minutes remaining. -/
theorem cooldown_gates_start_end_witness :
    (sleep_start_ep stCooldown 1 60 true).1 = SleepStartResult.ignored (some 20) ∧
    (sleep_end_ep stCooldown 1 60).1 = SleepEndResult.ignored (some 20) := by
  have h := cooldown_gates_start_end_not_baby_away stCooldown 1 60 1200 true
    (by decide) (by decide)
  exact ⟨by rw [h.1]; decide, by rw [h.2.2.1]; decide⟩

/-- C10: `is_in_cooldown` is true exactly when a non-expired entry exists;
while it is true at the same instant, `get_cooldown_remaining` returns the
remaining time truncated to whole minutes plus one — never zero and never
`None` — and once the entry has expired it returns `None` and deletes the
entry. -/
theorem cooldown_remaining_positive (st : ServerState) (baby_id now : Int) :
    ((is_in_cooldown st baby_id now).1 = true ↔
      ∃ t, st.cooldowns baby_id = some t ∧ now < t) ∧
    (∀ t, st.cooldowns baby_id = some t → now < t →
      (get_cooldown_remaining st baby_id now).1 = some ((t - now).toNat / 60 + 1) ∧
      1 ≤ (t - now).toNat / 60 + 1) ∧
    (∀ t, st.cooldowns baby_id = some t → t ≤ now →
      (get_cooldown_remaining st baby_id now).1 = none ∧
      (get_cooldown_remaining st baby_id now).2.cooldowns baby_id = none) := by
  refine ⟨⟨?_, ?_⟩, ?_, ?_⟩
  · intro h
    unfold is_in_cooldown at h
    split at h
    · exact Bool.noConfusion h
    · rename_i t hc
      split at h
      · rename_i hlt
        exact ⟨t, hc, hlt⟩
      · exact Bool.noConfusion h
  · rintro ⟨t, hc, hlt⟩
    have he : is_in_cooldown st baby_id now = (true, st) := by
      unfold is_in_cooldown
      rw [hc]
      exact if_pos hlt
    rw [he]
  · intro t hc hlt
    have he : get_cooldown_remaining st baby_id now =
        (some ((t - now).toNat / 60 + 1), st) := by
      unfold get_cooldown_remaining
      rw [hc]
      exact if_pos (by omega : (0 : Int) < t - now)
    rw [he]
    exact ⟨rfl, by omega⟩
  · intro t hc hle
    have he : get_cooldown_remaining st baby_id now =
        (none, { st with cooldowns := fun x => if x = baby_id then none else st.cooldowns x }) := by
      unfold get_cooldown_remaining
      rw [hc]
      exact if_neg (by omega : ¬ (0 : Int) < t - now)
    rw [he]
    exact ⟨rfl, by simp⟩

/-- Witness for C10 at `stCooldown`: 1140 seconds of cooldown left at time 60
report as 20 minutes; at time 1500 the cooldown is expired, reports `None`
and the entry is gone. -/
theorem cooldown_remaining_positive_witness :
    (get_cooldown_remaining stCooldown 1 60).1 = some 20 ∧
    (get_cooldown_remaining stCooldown 1 1500).1 = none ∧
    (get_cooldown_remaining stCooldown 1 1500).2.cooldowns 1 = none := by
  have h1 := (cooldown_remaining_positive stCooldown 1 60).2.1 1200 (by decide) (by decide)
  have h2 := (cooldown_remaining_positive stCooldown 1 1500).2.2 1200 (by decide) (by decide)
  exact ⟨by rw [h1.1]; decide, h2.1, h2.2⟩

/-! ## Atomicity of the cooldown check (sensor_events.py sleep_start,
sleep_state.py locking)

Every `SleepStateManager` method acquires `self._lock` for its own body
only, so each method call is one atomic step on the shared state, but the
`sleep_start` endpoint awaits `is_in_cooldown` and then separately awaits
`start_sleep`: between the two awaits the event loop may run a concurrent
`parent_intervention` request (`start_intervention_cooldown` then
`end_sleep`) for the same subject.  The executions below compose the
lock-atomic steps in the two serial orders and in that interleaving. -/

/-- The automatic sleep-start mutation, given the earlier cooldown answer:
skip when the check said in-cooldown, otherwise `start_sleep`. -/
def autoMutate (c : Bool × ServerState) (baby_id now : Int) : ServerState :=
  if c.1 then c.2 else (mgr_start_sleep c.2 baby_id now).2

/-- The manual mark-awake override of `parent_intervention`:
`start_intervention_cooldown` then `end_sleep`, each one lock-atomic step. -/
def manualOverride (st : ServerState) (baby_id now : Int) : ServerState :=
  (mgr_end_sleep (start_intervention_cooldown st baby_id now).2 baby_id).2

/-- Automatic sleep-start fully before the manual mark-awake override. -/
def serial_auto_then_manual (st : ServerState) (baby_id now : Int) : ServerState :=
  manualOverride (autoMutate (is_in_cooldown st baby_id now) baby_id now) baby_id now

/-- Manual mark-awake override fully before the automatic sleep-start. -/
def serial_manual_then_auto (st : ServerState) (baby_id now : Int) : ServerState :=
  autoMutate (is_in_cooldown (manualOverride st baby_id now) baby_id now) baby_id now

/-- The interleaving the separate critical sections permit: the automatic
event's cooldown check runs first, the whole manual override runs between
the check and the mutation, and the mutation then acts on the overridden
state using the stale check answer. -/
def interleaved_auto_manual (st : ServerState) (baby_id now : Int) : ServerState :=
  autoMutate ((is_in_cooldown st baby_id now).1,
    manualOverride (is_in_cooldown st baby_id now).2 baby_id now) baby_id now

/-- A manager state tracking nothing: no sessions, no cooldowns. -/
def stIdle : ServerState := { sessions := fun _ => none, cooldowns := fun _ => none }

/-- C9 counterexample: the cooldown check and the subsequent mutation are
not one critical section.  From the idle state, interleaving a manual
mark-awake override between the automatic event's cooldown check and its
mutation leaves baby 1 with an active session although the override's
cooldown is active — an outcome neither serial order produces, so the
check-then-mutate pair is not atomic with respect to manual overrides. -/
theorem cooldown_check_not_atomic_cex :
    (interleaved_auto_manual stIdle 1 0).sessions 1 = some (SleepSession.mk 1 0) ∧
    (interleaved_auto_manual stIdle 1 0).cooldowns 1 = some 1200 ∧
    (serial_auto_then_manual stIdle 1 0).sessions 1 = none ∧
    (serial_manual_then_auto stIdle 1 0).sessions 1 = none := by
  decide

/-- C9 amended: each tracker operation is individually atomic under the
manager lock, but for any subject with no prior session or cooldown the
permitted interleaving leaves an active session coexisting with the active
cooldown the mark-awake override just started, while under either serial
order the subject ends with no session. -/
theorem interleaved_override_outcome (st : ServerState) (baby_id now : Int)
    (hs : st.sessions baby_id = none) (hc : st.cooldowns baby_id = none) :
    (interleaved_auto_manual st baby_id now).sessions baby_id =
      some (SleepSession.mk baby_id now) ∧
    (interleaved_auto_manual st baby_id now).cooldowns baby_id =
      some (now + INTERVENTION_COOLDOWN_MINUTES * 60) ∧
    now < now + INTERVENTION_COOLDOWN_MINUTES * 60 ∧
    (serial_auto_then_manual st baby_id now).sessions baby_id = none ∧
    (serial_manual_then_auto st baby_id now).sessions baby_id = none := by
  have hin : is_in_cooldown st baby_id now = (false, st) := by
    unfold is_in_cooldown
    rw [hc]
  have hlt : now < now + INTERVENTION_COOLDOWN_MINUTES * 60 := by
    unfold INTERVENTION_COOLDOWN_MINUTES
    omega
  have hman : manualOverride st baby_id now =
      { st with cooldowns := fun x =>
          if x = baby_id then some (now + INTERVENTION_COOLDOWN_MINUTES * 60)
          else st.cooldowns x } := by
    unfold manualOverride mgr_end_sleep end_sleep start_intervention_cooldown
    simp only [hs]
  refine ⟨?_, ?_, hlt, ?_, ?_⟩
  · unfold interleaved_auto_manual
    rw [hin]
    simp [autoMutate, hman, mgr_start_sleep, start_sleep, hs]
  · unfold interleaved_auto_manual
    rw [hin]
    simp [autoMutate, hman, mgr_start_sleep, start_sleep, hs]
  · unfold serial_auto_then_manual
    rw [hin]
    simp [autoMutate, manualOverride, mgr_start_sleep, start_sleep,
      mgr_end_sleep, end_sleep, start_intervention_cooldown, hs]
  · have hex : (manualOverride st baby_id now).cooldowns baby_id =
        some (now + INTERVENTION_COOLDOWN_MINUTES * 60) := by
      rw [hman]
      simp
    have hin2 : is_in_cooldown (manualOverride st baby_id now) baby_id now =
        (true, manualOverride st baby_id now) := by
      unfold is_in_cooldown
      rw [hex]
      exact if_pos hlt
    unfold serial_manual_then_auto
    rw [hin2]
    show (manualOverride st baby_id now).sessions baby_id = none
    rw [hman]
    exact hs

/-- Witness for the amended C9 at the idle state and time 0. -/
theorem interleaved_override_outcome_witness :
    (interleaved_auto_manual stIdle 1 0).sessions 1 = some (SleepSession.mk 1 0) ∧
    (serial_auto_then_manual stIdle 1 0).sessions 1 = none ∧
    (serial_manual_then_auto stIdle 1 0).sessions 1 = none := by
  have h := interleaved_override_outcome stIdle 1 0 rfl rfl
  exact ⟨h.1, h.2.2.2.1, h.2.2.2.2⟩

/-! ## Sleep block aggregator (sleep_blocks.py)

Timestamps are rationals in seconds (datetime differences are exact to the
microsecond and `total_seconds()/60.0` divides exactly in the model);
durations are rationals in minutes.  The three normalizable source shapes
sniffed by `_detect_source` are a tagged union; a timestamp field that is
missing or unparseable is `none`, and the Python `or 0.0` on a missing
duration is `Option.getD 0`. -/

/-- A raw record in one of the shapes `_detect_source` recognises, plus the
unknown shape. -/
inductive RawEvent where
  | awakeningsWithInsights (awakened_at : Option ℚ) (sleep_duration_minutes : Option ℚ)
  | eventsForPeriod (sleep_started_at : Option ℚ) (awakened_at : Option ℚ)
      (sleep_duration_minutes : Option ℚ)
  | sessionsForRange (sleep_started_at : Option ℚ) (awakened_at : Option ℚ)
      (duration_minutes : Option ℚ)
  | unknown
deriving DecidableEq

/-- The normalized record produced by `_normalize_event`:
`{sleep_started_at, awakened_at, duration_minutes, original}`. -/
structure NormalizedEvent where
  sleep_started_at : ℚ
  awakened_at : ℚ
  duration_minutes : ℚ
  original : RawEvent
deriving DecidableEq

/-- Shallow embedding of `_normalize_event`: the `awakenings_with_insights`
shape derives `sleep_started_at = awakened_at - timedelta(minutes=duration)`;
the other two shapes require both timestamps; any missing required timestamp
(and the unknown shape) yields `none`. -/
def _normalize_event : RawEvent → Option NormalizedEvent
  | RawEvent.awakeningsWithInsights awakened_at dur =>
      match awakened_at with
      | none => none
      | some aw =>
          some (NormalizedEvent.mk (aw - 60 * dur.getD 0) aw (dur.getD 0)
            (RawEvent.awakeningsWithInsights awakened_at dur))
  | RawEvent.eventsForPeriod sleep_started_at awakened_at dur =>
      match sleep_started_at, awakened_at with
      | some st, some aw =>
          some (NormalizedEvent.mk st aw (dur.getD 0)
            (RawEvent.eventsForPeriod sleep_started_at awakened_at dur))
      | _, _ => none
  | RawEvent.sessionsForRange sleep_started_at awakened_at dur =>
      match sleep_started_at, awakened_at with
      | some st, some aw =>
          some (NormalizedEvent.mk st aw (dur.getD 0)
            (RawEvent.sessionsForRange sleep_started_at awakened_at dur))
      | _, _ => none
  | RawEvent.unknown => none

/-- The aggregator output `SleepBlock` dataclass, with the constituent
normalized events in place of the `events` list of original dicts. -/
structure SleepBlock where
  block_start : ℚ
  block_end : ℚ
  total_sleep_minutes : ℚ
  total_block_minutes : ℚ
  interruption_count : Nat
  event_count : Nat
  events : List NormalizedEvent
deriving DecidableEq

/-- Junk record used only as the default of `headD`/`getLastD`; every block
the grouping produces is nonempty, so it is never read. -/
def defaultNE : NormalizedEvent := NormalizedEvent.mk 0 0 0 RawEvent.unknown

/-- Shallow embedding of `_build_block` (callers pass nonempty lists; the
source indexes `[0]` and `[-1]`). -/
def _build_block (events : List NormalizedEvent) : SleepBlock :=
  { block_start := (events.headD defaultNE).sleep_started_at
    block_end := (events.getLastD defaultNE).awakened_at
    total_sleep_minutes := (events.map (fun e => e.duration_minutes)).sum
    total_block_minutes :=
      ((events.getLastD defaultNE).awakened_at - (events.headD defaultNE).sleep_started_at) / 60
    interruption_count := events.length - 1
    event_count := events.length
    events := events }

/-- The gap computed by `group_into_sleep_blocks`:
`(curr["sleep_started_at"] - prev["awakened_at"]).total_seconds() / 60.0`. -/
def gapMinutes (prev curr : NormalizedEvent) : ℚ :=
  (curr.sleep_started_at - prev.awakened_at) / 60

/-- The grouping loop of `group_into_sleep_blocks`: `cur` is
`current_block_events` (always nonempty), and each next record joins it when
the gap to the last record of the block is at most the threshold, otherwise
the block is closed and a new one starts. -/
def groupGo (thr : ℚ) : List NormalizedEvent → List NormalizedEvent → List (List NormalizedEvent)
  | cur, [] => [cur]
  | cur, r :: rest =>
      if gapMinutes (cur.getLastD defaultNE) r ≤ thr then groupGo thr (cur ++ [r]) rest
      else cur :: groupGo thr [r] rest

/-- Ordering on normalized records used by
`normalized.sort(key=lambda e: e["sleep_started_at"])`. -/
def startLE (a b : NormalizedEvent) : Prop :=
  a.sleep_started_at ≤ b.sleep_started_at

instance : DecidableRel startLE := fun a b =>
  inferInstanceAs (Decidable (a.sleep_started_at ≤ b.sleep_started_at))

instance : IsTotal NormalizedEvent startLE :=
  ⟨fun a b => le_total a.sleep_started_at b.sleep_started_at⟩

instance : IsTrans NormalizedEvent startLE :=
  ⟨fun _ _ _ hab hbc => le_trans hab hbc⟩

/-- The constant `SLEEP_BLOCK_GAP_THRESHOLD_MINUTES = 30` from constants.py,
the default `gap_threshold_minutes`. -/
def SLEEP_BLOCK_GAP_THRESHOLD_MINUTES : ℚ := 30

/-- Shallow embedding of `group_into_sleep_blocks`: normalize (dropping
records that normalize to `None`), sort ascending by `sleep_started_at`
(Python's stable sort, modelled by insertion sort, which is stable), group
by the gap rule, and build a block per group.  Empty input and input with
nothing normalizable both return the empty list. -/
def group_into_sleep_blocks (thr : ℚ) (events : List RawEvent) : List SleepBlock :=
  match List.insertionSort startLE (events.filterMap _normalize_event) with
  | [] => []
  | h :: t => (groupGo thr [h] t).map _build_block

theorem groupGo_flatten (thr : ℚ) : ∀ (rest cur : List NormalizedEvent),
    (groupGo thr cur rest).flatten = cur ++ rest := by
  intro rest
  induction rest with
  | nil => intro cur; simp [groupGo]
  | cons r rest ih =>
    intro cur
    simp only [groupGo]
    split
    · rw [ih (cur ++ [r])]
      simp
    · rw [List.flatten_cons, ih [r]]
      rfl

theorem groupGo_ne_nil (thr : ℚ) : ∀ (rest cur : List NormalizedEvent), cur ≠ [] →
    ∀ b ∈ groupGo thr cur rest, b ≠ [] := by
  intro rest
  induction rest with
  | nil =>
    intro cur hcur b hb
    simp only [groupGo, List.mem_singleton] at hb
    subst hb
    exact hcur
  | cons r rest ih =>
    intro cur hcur b hb
    simp only [groupGo] at hb
    split at hb
    · exact ih (cur ++ [r]) (by simp) b hb
    · rcases List.mem_cons.mp hb with rfl | hb
      · exact hcur
      · exact ih [r] (by simp) b hb

theorem groupGo_head (thr : ℚ) : ∀ (rest cur : List NormalizedEvent), cur ≠ [] →
    ∃ b bs, groupGo thr cur rest = b :: bs ∧ b.headD defaultNE = cur.headD defaultNE := by
  intro rest
  induction rest with
  | nil =>
    intro cur _
    exact ⟨cur, [], rfl, rfl⟩
  | cons r rest ih =>
    intro cur hcur
    simp only [groupGo]
    split
    · obtain ⟨b, bs, h1, h2⟩ := ih (cur ++ [r]) (by simp)
      refine ⟨b, bs, h1, ?_⟩
      rw [h2]
      cases cur with
      | nil => exact absurd rfl hcur
      | cons x xs => rfl
    · exact ⟨cur, groupGo thr [r] rest, rfl, rfl⟩

theorem groupGo_chain (thr : ℚ) : ∀ (rest cur : List NormalizedEvent),
    List.Chain' (fun a e => gapMinutes a e ≤ thr) cur →
    ∀ b ∈ groupGo thr cur rest, List.Chain' (fun a e => gapMinutes a e ≤ thr) b := by
  intro rest
  induction rest with
  | nil =>
    intro cur hchain b hb
    simp only [groupGo, List.mem_singleton] at hb
    subst hb
    exact hchain
  | cons r rest ih =>
    intro cur hchain b hb
    simp only [groupGo] at hb
    split at hb
    · rename_i hgap
      refine ih (cur ++ [r]) ?_ b hb
      rw [List.chain'_append]
      refine ⟨hchain, List.chain'_singleton r, ?_⟩
      intro x hx y hy
      have hy' : r = y := by simpa using hy
      subst hy'
      have hx' : cur.getLastD defaultNE = x := by
        rw [List.getLastD_eq_getLast?, show cur.getLast? = some x from hx]
        rfl
      rw [← hx']
      exact hgap
    · rcases List.mem_cons.mp hb with rfl | hb
      · exact hchain
      · exact ih [r] (List.chain'_singleton r) b hb

theorem groupGo_boundary (thr : ℚ) : ∀ (rest cur : List NormalizedEvent), cur ≠ [] →
    List.Chain'
      (fun b1 b2 => thr < gapMinutes (b1.getLastD defaultNE) (b2.headD defaultNE))
      (groupGo thr cur rest) := by
  intro rest
  induction rest with
  | nil =>
    intro cur _
    exact List.chain'_singleton cur
  | cons r rest ih =>
    intro cur hcur
    simp only [groupGo]
    split
    · exact ih (cur ++ [r]) (by simp)
    · rename_i hgap
      obtain ⟨b, bs, h1, h2⟩ := groupGo_head thr rest [r] (by simp)
      rw [h1, List.chain'_cons]
      constructor
      · rw [h2]
        exact lt_of_not_le hgap
      · rw [← h1]
        exact ih [r] (by simp)

/-- C4: the aggregator sorts the normalized records ascending by
`sleep_started_at` and partitions the sorted sequence into consecutive
chunks such that adjacent records inside a chunk are at most the gap
threshold apart (in minutes) while consecutive chunks are separated by a gap
above the threshold; each emitted block is built from its chunk with
`block_start` the first record's `sleep_started_at`, `block_end` the last
record's `awakened_at`, `total_sleep_minutes` the sum of constituent
durations, `total_block_minutes` the span from start to end, and
`interruption_count` the constituent count minus one (so a single record
gives one block with zero interruptions). -/
theorem sleep_blocks_grouping (thr : ℚ) (events : List RawEvent) :
    ∃ chunks : List (List NormalizedEvent),
      group_into_sleep_blocks thr events = chunks.map _build_block ∧
      chunks.flatten = List.insertionSort startLE (events.filterMap _normalize_event) ∧
      List.Sorted startLE chunks.flatten ∧
      chunks.flatten.Perm (events.filterMap _normalize_event) ∧
      (∀ b ∈ chunks, b ≠ []) ∧
      (∀ b ∈ chunks, List.Chain' (fun a e => gapMinutes a e ≤ thr) b) ∧
      List.Chain'
        (fun b1 b2 => thr < gapMinutes (b1.getLastD defaultNE) (b2.headD defaultNE))
        chunks ∧
      (∀ b ∈ chunks,
        (_build_block b).block_start = (b.headD defaultNE).sleep_started_at ∧
        (_build_block b).block_end = (b.getLastD defaultNE).awakened_at ∧
        (_build_block b).total_sleep_minutes = (b.map (fun e => e.duration_minutes)).sum ∧
        (_build_block b).total_block_minutes =
          ((b.getLastD defaultNE).awakened_at - (b.headD defaultNE).sleep_started_at) / 60 ∧
        (_build_block b).interruption_count = b.length - 1 ∧
        (_build_block b).event_count = b.length) := by
  rcases hs : List.insertionSort startLE (events.filterMap _normalize_event) with _ | ⟨h, t⟩
  · have hp := List.perm_insertionSort startLE (events.filterMap _normalize_event)
    rw [hs] at hp
    have hnil : events.filterMap _normalize_event = [] := hp.symm.eq_nil
    refine ⟨[], ?_, by simp, by simp, ?_, by simp, by simp, by simp, by simp⟩
    · unfold group_into_sleep_blocks
      rw [hs]
      rfl
    · rw [hnil]
      simp
  · refine ⟨groupGo thr [h] t, ?_, ?_, ?_, ?_,
      groupGo_ne_nil thr t [h] (by simp),
      groupGo_chain thr t [h] (List.chain'_singleton h),
      groupGo_boundary thr t [h] (by simp), ?_⟩
    · unfold group_into_sleep_blocks
      rw [hs]
    · rw [groupGo_flatten thr t [h]]
      simp
    · rw [groupGo_flatten thr t [h]]
      have hsorted := List.sorted_insertionSort startLE (events.filterMap _normalize_event)
      rw [hs] at hsorted
      exact hsorted
    · rw [groupGo_flatten thr t [h]]
      have hp := List.perm_insertionSort startLE (events.filterMap _normalize_event)
      rw [hs] at hp
      exact hp
    · intro b _
      exact ⟨rfl, rfl, rfl, rfl, rfl, rfl⟩

/-- C5: a record of the shape that carries only `awakened_at` and a duration
normalizes with `sleep_started_at = awakened_at - duration` (awakening at
12:00 with 40 minutes of sleep starts at 11:20), a record missing a required
timestamp normalizes to nothing under every shape, and such a record is
simply dropped by the aggregator rather than failing the call. -/
theorem normalize_derives_start_and_drops :
    (∀ aw d, _normalize_event (RawEvent.awakeningsWithInsights (some aw) (some d)) =
      some (NormalizedEvent.mk (aw - 60 * d) aw d
        (RawEvent.awakeningsWithInsights (some aw) (some d)))) ∧
    _normalize_event (RawEvent.awakeningsWithInsights (some 43200) (some 40)) =
      some (NormalizedEvent.mk 40800 43200 40
        (RawEvent.awakeningsWithInsights (some 43200) (some 40))) ∧
    (∀ d, _normalize_event (RawEvent.awakeningsWithInsights none d) = none) ∧
    (∀ aw d, _normalize_event (RawEvent.eventsForPeriod none aw d) = none) ∧
    (∀ st d, _normalize_event (RawEvent.eventsForPeriod st none d) = none) ∧
    (∀ aw d, _normalize_event (RawEvent.sessionsForRange none aw d) = none) ∧
    (∀ st d, _normalize_event (RawEvent.sessionsForRange st none d) = none) ∧
    (∀ thr e events, _normalize_event e = none →
      group_into_sleep_blocks thr (e :: events) = group_into_sleep_blocks thr events) := by
  refine ⟨fun aw d => rfl,
    by rw [show (40800 : ℚ) = 43200 - 60 * 40 by norm_num]; rfl, fun d => rfl, ?_, ?_, ?_, ?_, ?_⟩
  · intro aw d
    cases aw <;> rfl
  · intro st d
    cases st <;> rfl
  · intro aw d
    cases aw <;> rfl
  · intro st d
    cases st <;> rfl
  · intro thr e events h
    unfold group_into_sleep_blocks
    rw [List.filterMap_cons, h]

/-- Witness for C5: a record with no `awakened_at` is dropped and the
aggregation proceeds over the remaining record. -/
theorem normalize_drops_witness :
    group_into_sleep_blocks 30
      [RawEvent.awakeningsWithInsights none (some 10),
       RawEvent.sessionsForRange (some 36000) (some 37800) (some 30)] =
    group_into_sleep_blocks 30
      [RawEvent.sessionsForRange (some 36000) (some 37800) (some 30)] :=
  normalize_derives_start_and_drops.2.2.2.2.2.2.2 30
    (RawEvent.awakeningsWithInsights none (some 10))
    [RawEvent.sessionsForRange (some 36000) (some 37800) (some 30)] rfl
